import Mathlib

/-!
Shallow embedding of the wf-latch-methylkit pipeline (src/wf/task.py):
the Formatter (`format_bed_files`), the DMR Invoker (`methyl_task`) and the
Track Builder (`interpolate_color`, `create_track`).

Tabular data is modelled exactly: a pandas cell is a string, a rational
number, or NaN; machine floats are modelled by exact rationals; Python
exceptions raised by pandas / the standard library are modelled by an
explicit error type carried in `Except`.
-/

namespace MethylKit

/-- The Python exceptions the code in src/wf/task.py can actually raise:
a pandas `KeyError` on a missing column label, a `TypeError` from
arithmetic on a non-numeric column, a `FileNotFoundError` from opening a
path, a pandas `ValueError` from a column-length mismatch, and
`subprocess.CalledProcessError` from `check=True`. -/
inductive PyError where
  | keyError (label : Nat)
  | typeError
  | fileNotFoundError (path : String)
  | valueErrorLengthMismatch (got expected : Nat)
  | calledProcessError (exitCode : Nat)
deriving DecidableEq, Repr

/-- One pandas cell: a string, a (finite) number modelled as a rational,
or NaN (the missing-value marker produced by read_csv). -/
inductive Cell where
  | str (s : String)
  | num (q : ℚ)
  | nan
deriving DecidableEq, Repr

/-- Python `int(q)`: truncation toward zero. -/
def pyInt (q : ℚ) : ℤ := if q < 0 then -⌊-q⌋ else ⌊q⌋

/-- numpy / pandas `.round()` (also Python's builtin `round` to 0 digits):
round half to even. -/
def roundHalfEven (q : ℚ) : ℤ :=
  if q - ⌊q⌋ < 1/2 then ⌊q⌋
  else if 1/2 < q - ⌊q⌋ then ⌊q⌋ + 1
  else if ⌊q⌋ % 2 = 0 then ⌊q⌋ else ⌊q⌋ + 1

/-- Elementwise multiplication of a pandas cell by a float scalar:
NaN propagates, a string raises `TypeError`. -/
def Cell.mulConst : Cell → ℚ → Except PyError Cell
  | .num q, c => .ok (.num (q * c))
  | .nan, _ => .ok .nan
  | .str _, _ => .error .typeError

/-- Elementwise multiplication of two pandas cells: NaN propagates, any
string operand raises `TypeError`. -/
def Cell.mulCell : Cell → Cell → Except PyError Cell
  | .num a, .num b => .ok (.num (a * b))
  | .num _, .nan => .ok .nan
  | .nan, .num _ => .ok .nan
  | .nan, .nan => .ok .nan
  | _, _ => .error .typeError

/-- Elementwise `.round()` on a cell (round half to even); NaN stays NaN,
a string raises `TypeError`. -/
def Cell.roundHE : Cell → Except PyError Cell
  | .num q => .ok (.num (roundHalfEven q))
  | .nan => .ok .nan
  | .str _ => .error .typeError

/-- Elementwise `.fillna(0)`: NaN becomes the number 0, every other cell
is unchanged. -/
def Cell.fillna : Cell → Cell
  | .nan => .num 0
  | c => c

/-- A cell is numeric-or-missing (what pandas produces for a column that
parsed as numbers, possibly with holes). -/
def Cell.numOrNan : Cell → Prop
  | .str _ => False
  | _ => True

instance : DecidablePred Cell.numOrNan := by
  intro c
  cases c <;> simp [Cell.numOrNan] <;> infer_instance

/-- Column assignment `table[j] = c` on one row: pandas overwrites the column when label
`j` exists, otherwise appends a new column at the end (used only with
`j ≤ row.length`). -/
def setCell (row : List Cell) (j : Nat) (c : Cell) : List Cell :=
  if j < row.length then row.set j c else row ++ [c]

/-- Error-propagating map over a list, stopping at the first error (the
order pandas/Python surfaces the first failure in). -/
def mapE (f : α → Except PyError β) : List α → Except PyError (List β)
  | [] => .ok []
  | a :: as =>
      match f a with
      | .error e => .error e
      | .ok b =>
          match mapE f as with
          | .error e => .error e
          | .ok bs => .ok (b :: bs)

/-- Per-row core of `format_bed_files` (src/wf/task.py lines 46-52),
on one row of the tab-separated source table:
`table[11] = table[10] * 0.01 * table[9]`, `table[12] = table[10] * 0.01`,
`table[11] = table[11].round()` (the integer downcast is value-preserving),
select columns `[0,1,2,3,4,5,6,7,8,9,11,12]`, then `.fillna(0)`.
Reading label 10 (or 9) from a table with at most 10 columns raises a
pandas `KeyError`; label 10 is read first in the Python expression. -/
def formatRow (row : List Cell) : Except PyError (List Cell) :=
  if 11 ≤ row.length then
    let c9 := row.getD 9 .nan
    let c10 := row.getD 10 .nan
    match c10.mulConst (1/100) with
    | .error e => .error e
    | .ok m =>
        match m.mulCell c9 with
        | .error e => .error e
        | .ok prod =>
            match prod.roundHE with
            | .error e => .error e
            | .ok c11 =>
                match c10.mulConst (1/100) with
                | .error e => .error e
                | .ok c12 =>
                    let row1 := setCell (setCell row 11 c11) 12 c12
                    match mapE
                        (fun j => if j < row1.length then .ok (row1.getD j .nan)
                                  else .error (.keyError j))
                        [0, 1, 2, 3, 4, 5, 6, 7, 8, 9, 11, 12] with
                    | .error e => .error e
                    | .ok sel => .ok (sel.map Cell.fillna)
  else .error (.keyError 10)

/-- A Formatter input sample (src/wf/task.py `Sample`): name, the parsed
rows of its source table, and the treatment flag. -/
structure Sample where
  sample_name : String
  rows : List (List Cell)
  treatment : Bool
deriving DecidableEq, Repr

/-- A Formatter output record (src/wf/task.py `ProcessedBED`): name, the
rows of the written `.bed` table, and the treatment flag. -/
structure ProcessedBED where
  sample_name : String
  rows : List (List Cell)
  treatment : Bool
deriving DecidableEq, Repr

/-- Embedding of `format_bed_files` (src/wf/task.py lines 42-81): transform each
sample's table row by row and carry over `sample_name` and `treatment`;
any pandas error aborts the whole batch. -/
def format_bed_files (samples : List Sample) : Except PyError (List ProcessedBED) :=
  mapE
    (fun s =>
      match mapE formatRow s.rows with
      | .error e => .error e
      | .ok rows => .ok (ProcessedBED.mk s.sample_name rows s.treatment))
    samples

/-- Embedding of `interpolate_color` (src/wf/task.py lines 145-149):
`red = int((1 - normalized_val) * 255)`, `blue = int(normalized_val * 255)`,
returned as the string `"red,0,blue"`. -/
def interpolate_color (normalized_val : ℚ) : String :=
  let red : ℤ := pyInt ((1 - normalized_val) * 255)
  let blue : ℤ := pyInt (normalized_val * 255)
  toString red ++ ",0," ++ toString blue

/-- The color map as the spec's words state it (claim C1): both channels
computed with `round` instead of Python's `int` truncation. -/
def interpolate_color_by_round (normalized_val : ℚ) : String :=
  let red : ℤ := roundHalfEven ((1 - normalized_val) * 255)
  let blue : ℤ := roundHalfEven (normalized_val * 255)
  toString red ++ ",0," ++ toString blue

/-- One row of the DMR results table after `create_track` forcibly
renames the 7 columns positionally (src/wf/task.py line 172). -/
structure DMRRow where
  chrom : String
  chromStart : ℤ
  chromEnd : ℤ
  strand : String
  pvalue : ℚ
  qvalue : ℚ
  methDiff : ℚ
deriving DecidableEq, Repr

/-- Minimum of a pandas numeric column (defined as 0 on the empty
column, which `create_track` never hits with a row present). -/
def qmin : List ℚ → ℚ
  | [] => 0
  | a :: as => as.foldl min a

/-- Maximum of a pandas numeric column. -/
def qmax : List ℚ → ℚ
  | [] => 0
  | a :: as => as.foldl max a

/-- Normalization step of `create_track` (src/wf/task.py lines 174-181):
when `min_pval == max_pval` every row gets `normalized = 1`, otherwise
`normalized = (pvalue - min_pval) / (max_pval - min_pval)`. -/
def normalizedCol (rows : List DMRRow) : List ℚ :=
  let pv := rows.map (·.pvalue)
  let mn := qmin pv
  let mx := qmax pv
  if mn = mx then rows.map (fun _ => 1)
  else rows.map (fun r => (r.pvalue - mn) / (mx - mn))

/-- Row construction and column selection of `create_track`
(src/wf/task.py lines 184-193), per row: color from the normalized value,
`score = 0`, `strand = "."`, `1_o`/`2_o` copies of start/end, qvalue
stringified and copied into `name`, then the 9 columns selected in order
chr, start, end, name, score, strand, 1_o, 2_o, color. `render` models
Python's `str` on the floats read from the CSV. -/
def create_track_rows (render : ℚ → String) (rows : List DMRRow) : List (List String) :=
  (rows.zip (normalizedCol rows)).map (fun p =>
    [p.1.chrom, toString p.1.chromStart, toString p.1.chromEnd,
     render p.1.qvalue, "0", ".", toString p.1.chromStart,
     toString p.1.chromEnd, interpolate_color p.2])

/-- Tab-separated serialization of one output row (`df.to_csv` with
`sep="\t"`). -/
def tabJoin (fields : List String) : String :=
  String.intercalate ("\t") fields

/-- The literal track header line written at the top of the output file
(src/wf/task.py line 196). -/
def trackHeader (track_name : String) : String :=
  "track name=\"" ++ track_name ++ "\" description=\".\" itemRgb=\"On\""

/-- Full text of the file `create_track` writes (src/wf/task.py lines
193-203): `to_csv` emits one tab-joined line per row, each ending in a
newline, then the file is rewritten as header, newline, original body. -/
def create_track_output (track_name : String) (render : ℚ → String)
    (rows : List DMRRow) : String :=
  let body := String.join ((create_track_rows render rows).map (fun fs => tabJoin fs ++ "\n"))
  trackHeader track_name ++ "\n" ++ body

/-- Python's substring test `"DMR_regions.csv" in path`. -/
def dmrMatch (path : String) : Bool :=
  decide (List.IsInfix ("DMR_regions.csv".data) path.data)

/-- A file of the DMR results directory as `create_track` sees it: its
path, the column count of its table, and (when it parses as a 7-column
results table) its rows. -/
structure ResultsFile where
  path : String
  ncols : Nat
  rows : List DMRRow
deriving DecidableEq, Repr

/-- File-location loop of `create_track` (src/wf/task.py lines 164-168):
`file_path` starts as `""` and is overwritten by every match, so the last
match in iteration order wins. -/
def locateDMRFile (paths : List String) : String :=
  paths.foldl (fun acc p => if dmrMatch p then p else acc) ""

/-- Front half of `create_track` (src/wf/task.py lines 164-172): locate
the results file, `pd.read_csv` it (opening a path that names no file of
the directory — in particular the initial `""` — raises
`FileNotFoundError`), then assign the 7 column names, which raises a
pandas `ValueError` on a length mismatch. -/
def create_track_load (files : List ResultsFile) : Except PyError ResultsFile :=
  let fp := locateDMRFile (files.map (·.path))
  match files.find? (fun f => f.path == fp) with
  | none => .error (.fileNotFoundError fp)
  | some f =>
      if f.ncols = 7 then .ok f
      else .error (.valueErrorLengthMismatch f.ncols 7)

/-- An input to the DMR Invoker: the staged `.bed` file of one processed
sample (name, local path and treatment flag). -/
structure ProcessedBEDRef where
  sample_name : String
  local_path : String
  treatment : Bool
deriving DecidableEq, Repr

/-- Manifest loop of `methyl_task` (src/wf/task.py lines 96-109): the
sample names appended in order, then comma-joined. -/
def methyl_file_names (samples : List ProcessedBEDRef) : String :=
  String.intercalate (",") (samples.foldl (fun acc s => acc ++ [s.sample_name]) [])

/-- Manifest loop of `methyl_task`: the local file paths appended in
order, then comma-joined. -/
def methyl_file_paths (samples : List ProcessedBEDRef) : String :=
  String.intercalate (",") (samples.foldl (fun acc s => acc ++ [s.local_path]) [])

/-- Manifest loop of `methyl_task` (src/wf/task.py lines 100-111): the
treatment flags coerced to the integers 1/0 in order, stringified and
comma-joined. -/
def methyl_treatments (samples : List ProcessedBEDRef) : String :=
  String.intercalate (",")
    ((samples.foldl (fun acc s => acc ++ [if s.treatment then (1 : ℤ) else 0]) []).map toString)

/-- Argument list of the single `subprocess.run` call of `methyl_task`
(src/wf/task.py lines 119-137), in source order. `q_val_str` is Python's
`str` of the float `q_val`. -/
def methyl_args (samples : List ProcessedBEDRef) (output_dirpath : String)
    (base_cov_val tiling_val tile_coverage difference_val : ℤ)
    (q_val_str : String) : List String :=
  [ "Rscript", "methylkit_task.R",
    methyl_file_names samples, methyl_file_paths samples, output_dirpath,
    toString base_cov_val, toString tiling_val, toString tile_coverage,
    toString difference_val, q_val_str, methyl_treatments samples ]

/-- The shell commands `methyl_task` executes: exactly one, the argument
list joined by spaces. -/
def methyl_commands (samples : List ProcessedBEDRef) (output_dirpath : String)
    (base_cov_val tiling_val tile_coverage difference_val : ℤ)
    (q_val_str : String) : List String :=
  [ String.intercalate (" ")
      (methyl_args samples output_dirpath base_cov_val tiling_val tile_coverage
        difference_val q_val_str) ]

/-- A LatchDir handle: a local directory mapped to a remote location. -/
structure LatchDirHandle where
  local_dir : String
  remote_dir : String
deriving DecidableEq, Repr

/-- Tail of `methyl_task` (src/wf/task.py lines 119-142): `subprocess.run`
with `check=True` raises `CalledProcessError` on any non-zero exit status
of the engine, before the return statement; on exit 0 the function falls
through and returns the directory handle. -/
def methyl_run (exitCode : Nat) (local_dir remote_dir : String) :
    Except PyError LatchDirHandle :=
  if exitCode = 0 then .ok (LatchDirHandle.mk local_dir remote_dir)
  else .error (.calledProcessError exitCode)

/-- Derived methylated-count column as claim C2 words it:
`round(coverage * percentMeth / 100)`, an integer-valued cell, with NaN
propagating (`round` here is the half-to-even rounding that both numpy's
`.round()` and Python's builtin `round` perform). String cells do not
occur under C2's numeric-column hypothesis. -/
def methylatedCount : Cell → Cell → Cell
  | .num c, .num p => .num ((roundHalfEven (c * p / 100) : ℤ) : ℚ)
  | _, _ => .nan

/-- Derived methylated-fraction column as claim C2 words it:
`percentMeth / 100`, NaN propagating. -/
def methylatedFraction : Cell → Cell
  | .num p => .num (p / 100)
  | _ => .nan

/-- Default record used only as the `getD` fallback in statements. -/
def dmrDefault : DMRRow :=
  { chrom := "", chromStart := 0, chromEnd := 0, strand := "",
    pvalue := 0, qvalue := 0, methDiff := 0 }

/-- Default record used only as the `getD` fallback in statements. -/
def sampleDefault : Sample :=
  { sample_name := "", rows := [], treatment := false }

/-- Default record used only as the `getD` fallback in statements. -/
def processedDefault : ProcessedBED :=
  { sample_name := "", rows := [], treatment := false }

/-- Default record used only as the `getD` fallback in statements. -/
def refDefault : ProcessedBEDRef :=
  { sample_name := "", local_path := "", treatment := false }

/-- Concrete 11-column source row used by witnesses: coverage 10 at
column 9, percent-methylated 25 at column 10. -/
def rowFix : List Cell :=
  [Cell.str ("chr1"), Cell.num 100, Cell.num 200, Cell.str ("n"), Cell.num 0,
   Cell.str ("+"), Cell.num 100, Cell.num 200, Cell.str ("0,0,0"),
   Cell.num 10, Cell.num 25]

/-- Concrete sample with an empty table, used by the C6 witness. -/
def sampleFix : Sample :=
  { sample_name := "s1", rows := [], treatment := true }

/-- Concrete DMR results rows used by witnesses: two regions with
distinct p-values 0 and 1. -/
def dmrRowsFix : List DMRRow :=
  [ { chrom := "chr1", chromStart := 0, chromEnd := 200, strand := "+",
      pvalue := 0, qvalue := 0, methDiff := 30 },
    { chrom := "chr1", chromStart := 200, chromEnd := 400, strand := "+",
      pvalue := 1, qvalue := 1, methDiff := 40 } ]

/-- Concrete processed-bed references used by the C4 witness. -/
def refsFix : List ProcessedBEDRef :=
  [ { sample_name := "s1", local_path := "/root/t/processed_beds/s1.bed",
      treatment := true },
    { sample_name := "s2", local_path := "/root/t/processed_beds/s2.bed",
      treatment := false } ]

/-- Concrete results directory used by the C10 witness: two matching
files; the earlier match is even malformed and still ignored. -/
def filesFix : List ResultsFile :=
  [ { path := "a_DMR_regions.csv", ncols := 5, rows := [] },
    { path := "b_DMR_regions.csv", ncols := 7, rows := [] } ]

end MethylKit

namespace MethylKit

/-! Helper lemmas shared by the claim theorems. -/

theorem pyInt_eq_floor (q : ℚ) (h : 0 ≤ q) : pyInt q = ⌊q⌋ := by
  rw [pyInt, if_neg (not_lt.mpr h)]

theorem interpolate_color_one : interpolate_color 1 = "0,0,255" := by
  have h1 : pyInt (((1 : ℚ) - 1) * 255) = 0 := by
    rw [pyInt_eq_floor _ (by norm_num)]
    norm_num
  have h2 : pyInt ((1 : ℚ) * 255) = 255 := by
    rw [pyInt_eq_floor _ (by norm_num)]
    norm_num [Int.floor_eq_iff]
  simp only [interpolate_color, h1, h2]
  rfl

theorem foldl_min_le_init (as : List ℚ) (a : ℚ) : as.foldl min a ≤ a := by
  induction as generalizing a with
  | nil => exact le_refl a
  | cons b bs ih =>
      exact le_trans (ih (min a b)) (min_le_left a b)

theorem foldl_min_le_mem (as : List ℚ) (a x : ℚ) (hx : x ∈ as) :
    as.foldl min a ≤ x := by
  induction as generalizing a with
  | nil => cases hx
  | cons b bs ih =>
      rcases List.mem_cons.mp hx with h | h
      · subst h
        exact le_trans (foldl_min_le_init bs (min a x)) (min_le_right a x)
      · exact ih (min a b) h

theorem init_le_foldl_max (as : List ℚ) (a : ℚ) : a ≤ as.foldl max a := by
  induction as generalizing a with
  | nil => exact le_refl a
  | cons b bs ih =>
      exact le_trans (le_max_left a b) (ih (max a b))

theorem mem_le_foldl_max (as : List ℚ) (a x : ℚ) (hx : x ∈ as) :
    x ≤ as.foldl max a := by
  induction as generalizing a with
  | nil => cases hx
  | cons b bs ih =>
      rcases List.mem_cons.mp hx with h | h
      · subst h
        exact le_trans (le_max_right a x) (init_le_foldl_max bs (max a x))
      · exact ih (max a b) h

theorem qmin_le_mem (l : List ℚ) (x : ℚ) (hx : x ∈ l) : qmin l ≤ x := by
  cases l with
  | nil => cases hx
  | cons a as =>
      rcases List.mem_cons.mp hx with h | h
      · subst h; exact foldl_min_le_init as x
      · exact foldl_min_le_mem as a x h

theorem mem_le_qmax (l : List ℚ) (x : ℚ) (hx : x ∈ l) : x ≤ qmax l := by
  cases l with
  | nil => cases hx
  | cons a as =>
      rcases List.mem_cons.mp hx with h | h
      · subst h; exact init_le_foldl_max as x
      · exact mem_le_foldl_max as a x h

theorem qmin_le_qmax (l : List ℚ) (hne : l ≠ []) : qmin l ≤ qmax l := by
  cases l with
  | nil => exact absurd rfl hne
  | cons a as =>
      exact le_trans (qmin_le_mem _ a (List.mem_cons_self a as))
        (mem_le_qmax _ a (List.mem_cons_self a as))

theorem getD_map_of_lt {α β : Type} (f : α → β) (l : List α) (dA : α) (dB : β)
    (i : Nat) (hi : i < l.length) :
    (l.map f).getD i dB = f (l.getD i dA) := by
  rw [List.getD_eq_getElem _ _ (by simpa using hi), List.getD_eq_getElem _ _ hi,
    List.getElem_map]

end MethylKit

namespace MethylKit

theorem setCell_length (row : List Cell) (j : Nat) (c : Cell)
    (hj : j ≤ row.length) :
    (setCell row j c).length = max row.length (j + 1) := by
  by_cases hlt : j < row.length
  · simp only [setCell, if_pos hlt, List.length_set]
    omega
  · simp only [setCell, if_neg hlt, List.length_append, List.length_cons,
      List.length_nil]
    omega

theorem setCell_getD_of_ne (row : List Cell) (j : Nat) (c : Cell) (i : Nat)
    (hij : i ≠ j) (hj : j ≤ row.length) :
    (setCell row j c).getD i .nan = row.getD i .nan := by
  by_cases hlt : j < row.length
  · simp only [setCell, if_pos hlt]
    rcases Nat.lt_or_ge i row.length with hi | hi
    · rw [List.getD_eq_getElem _ _ (by simpa using hi),
        List.getD_eq_getElem _ _ hi, List.getElem_set_ne (Ne.symm hij)]
    · rw [List.getD_eq_default _ _ (by simpa using hi),
        List.getD_eq_default _ _ hi]
  · have hj' : j = row.length := by omega
    simp only [setCell, if_neg hlt]
    rcases Nat.lt_or_ge i row.length with hi | hi
    · exact List.getD_append _ _ _ _ hi
    · have hi' : row.length < i := by omega
      rw [List.getD_append_right _ _ _ _ hi, List.getD_eq_default _ _ hi,
        List.getD_eq_default]
      simp only [List.length_cons, List.length_nil]
      omega

theorem setCell_getD_self (row : List Cell) (j : Nat) (c : Cell)
    (hj : j ≤ row.length) :
    (setCell row j c).getD j .nan = c := by
  by_cases hlt : j < row.length
  · simp only [setCell, if_pos hlt]
    rw [List.getD_eq_getElem _ _ (by simpa using hlt), List.getElem_set_self]
  · have hj' : j = row.length := by omega
    simp only [setCell, if_neg hlt]
    rw [List.getD_append_right _ _ _ _ (by omega), hj']
    simp

theorem mapE_select (row1 : List Cell) (js : List Nat)
    (h : ∀ j ∈ js, j < row1.length) :
    mapE (fun j => if j < row1.length then .ok (row1.getD j .nan)
                   else .error (.keyError j)) js
      = .ok (js.map (fun j => row1.getD j .nan)) := by
  induction js with
  | nil => rfl
  | cons j js ih =>
      simp only [mapE, if_pos (h j (List.mem_cons_self j js)),
        ih (fun k hk => h k (List.mem_cons_of_mem j hk))]
      rfl

theorem mapE_ok_length {α β : Type} {f : α → Except PyError β} :
    ∀ {l : List α} {out : List β}, mapE f l = .ok out → out.length = l.length := by
  intro l
  induction l with
  | nil =>
      intro out h
      simp only [mapE, Except.ok.injEq] at h
      simp [← h]
  | cons a as ih =>
      intro out h
      cases hfa : f a with
      | error e => simp [mapE, hfa] at h
      | ok b =>
          cases hmas : mapE f as with
          | error e => simp [mapE, hfa, hmas] at h
          | ok bs =>
              simp only [mapE, hfa, hmas, Except.ok.injEq] at h
              simp [← h, ih hmas]

theorem mapE_ok_getD {α β : Type} {f : α → Except PyError β} (dA : α) (dB : β) :
    ∀ {l : List α} {out : List β}, mapE f l = .ok out →
      ∀ i, i < l.length → f (l.getD i dA) = .ok (out.getD i dB) := by
  intro l
  induction l with
  | nil =>
      intro out _ i hi
      cases hi
  | cons a as ih =>
      intro out h i hi
      cases hfa : f a with
      | error e => simp [mapE, hfa] at h
      | ok b =>
          cases hmas : mapE f as with
          | error e => simp [mapE, hfa, hmas] at h
          | ok bs =>
              simp only [mapE, hfa, hmas, Except.ok.injEq] at h
              subst h
              cases i with
              | zero => simpa using hfa
              | succ i =>
                  have := ih hmas i (by simpa using hi)
                  simpa using this

theorem mapE_ok_of_mem {α β : Type} {f : α → Except PyError β} :
    ∀ {l : List α} {out : List β}, mapE f l = .ok out →
      ∀ a ∈ l, ∃ b, f a = .ok b := by
  intro l
  induction l with
  | nil =>
      intro out _ a ha
      cases ha
  | cons x xs ih =>
      intro out h a ha
      cases hfa : f x with
      | error e => simp [mapE, hfa] at h
      | ok b =>
          cases hmas : mapE f xs with
          | error e => simp [mapE, hfa, hmas] at h
          | ok bs =>
              rcases List.mem_cons.mp ha with h' | h'
              · exact ⟨b, h' ▸ hfa⟩
              · exact ih hmas a h'

theorem locateDMRFile_foldl (paths : List String) :
    ∀ acc : String,
      paths.foldl (fun a p => if dmrMatch p then p else a) acc
        = (paths.filter (fun p => dmrMatch p)).getLastD acc := by
  induction paths with
  | nil => intro acc; rfl
  | cons p ps ih =>
      intro acc
      by_cases hm : dmrMatch p
      · rw [List.foldl_cons, if_pos hm, List.filter_cons, if_pos hm,
          List.getLastD_cons]
        exact ih p
      · rw [List.foldl_cons, if_neg hm, List.filter_cons, if_neg hm]
        exact ih acc

theorem locateDMRFile_eq_getLastD (paths : List String) :
    locateDMRFile paths = (paths.filter (fun p => dmrMatch p)).getLastD ("") :=
  locateDMRFile_foldl paths ("")

theorem locateDMRFile_no_match (paths : List String)
    (h : ∀ p ∈ paths, dmrMatch p = false) : locateDMRFile paths = "" := by
  rw [locateDMRFile_eq_getLastD]
  have hnil : paths.filter (fun p => dmrMatch p) = [] := by
    rw [List.filter_eq_nil_iff]
    intro p hp
    simp [h p hp]
  rw [hnil]
  rfl

end MethylKit

namespace MethylKit

/-- C1 counterexample: at normalized value 1/2 the code's color (built
with Python `int`, which truncates 127.5 to 127) differs from the
round-based color the claim states (127.5 rounds to 128 under every
common rounding convention). -/
theorem C1_counterexample :
    interpolate_color (1/2) = "127,0,127" ∧
    interpolate_color_by_round (1/2) = "128,0,128" ∧
    interpolate_color (1/2) ≠ interpolate_color_by_round (1/2) := by
  have hf : (⌊((1:ℚ) - 1/2) * 255⌋ : ℤ) = 127 := by norm_num [Int.floor_eq_iff]
  have hf2 : (⌊((1:ℚ)/2) * 255⌋ : ℤ) = 127 := by norm_num [Int.floor_eq_iff]
  have hp : pyInt (((1:ℚ) - 1/2) * 255) = 127 := by
    rw [pyInt_eq_floor _ (by norm_num), hf]
  have hp2 : pyInt (((1:ℚ)/2) * 255) = 127 := by
    rw [pyInt_eq_floor _ (by norm_num), hf2]
  have hr : roundHalfEven (((1:ℚ) - 1/2) * 255) = 128 := by
    simp only [roundHalfEven, hf]
    norm_num
  have hr2 : roundHalfEven (((1:ℚ)/2) * 255) = 128 := by
    simp only [roundHalfEven, hf2]
    norm_num
  refine ⟨?_, ?_, ?_⟩
  · simp only [interpolate_color, hp, hp2]
    rfl
  · simp only [interpolate_color_by_round, hr, hr2]
    rfl
  · simp only [interpolate_color, interpolate_color_by_round, hp, hp2, hr, hr2]
    decide

/-- C1 (amended): for every normalized value in [0,1] the color string is
"R,0,B" with R and B computed by truncation (Python `int`, equal to floor
on nonnegative arguments), not by rounding; both channels stay within
[0,255] and the green channel is the literal 0. -/
theorem C1_color_truncates (normalized_val : ℚ) (h0 : 0 ≤ normalized_val)
    (h1 : normalized_val ≤ 1) :
    interpolate_color normalized_val =
      toString ⌊(1 - normalized_val) * 255⌋ ++ ",0," ++
        toString ⌊normalized_val * 255⌋ ∧
    0 ≤ ⌊(1 - normalized_val) * 255⌋ ∧ ⌊(1 - normalized_val) * 255⌋ ≤ 255 ∧
    0 ≤ ⌊normalized_val * 255⌋ ∧ ⌊normalized_val * 255⌋ ≤ 255 := by
  have ha : (0:ℚ) ≤ (1 - normalized_val) * 255 := by nlinarith
  have hb : (0:ℚ) ≤ normalized_val * 255 := by nlinarith
  refine ⟨?_, ?_, ?_, ?_, ?_⟩
  · simp only [interpolate_color, pyInt_eq_floor _ ha, pyInt_eq_floor _ hb]
  · exact Int.le_floor.mpr (by exact_mod_cast ha)
  · have hle : ((1:ℚ) - normalized_val) * 255 ≤ 255 := by nlinarith
    have hfl := Int.floor_le ((1 - normalized_val) * 255)
    exact_mod_cast le_trans hfl hle
  · exact Int.le_floor.mpr (by exact_mod_cast hb)
  · have hle : (normalized_val : ℚ) * 255 ≤ 255 := by nlinarith
    have hfl := Int.floor_le (normalized_val * 255)
    exact_mod_cast le_trans hfl hle

/-- C1 witness: the amended theorem applied at normalized value 1/2,
with the resulting color evaluated. -/
theorem C1_witness :
    (0:ℚ) ≤ 1/2 ∧ (1/2:ℚ) ≤ 1 ∧ interpolate_color (1/2) = "127,0,127" := by
  refine ⟨by norm_num, by norm_num, ?_⟩
  have h := (C1_color_truncates (1/2) (by norm_num) (by norm_num)).1
  rw [h]
  rw [show (⌊((1:ℚ) - 1/2) * 255⌋ : ℤ) = 127 from by norm_num [Int.floor_eq_iff]]
  rw [show (⌊((1:ℚ)/2) * 255⌋ : ℤ) = 127 from by norm_num [Int.floor_eq_iff]]
  rfl

/-- C3: for a nonempty results table, when the minimum and maximum
p-value coincide every row's normalized value is exactly 1 and its color
"0,0,255" (the division is never taken); otherwise every row's normalized
value is (pvalue - minP) / (maxP - minP) and lies in [0,1]. -/
theorem C3_normalized_safety (rows : List DMRRow) (hne : rows ≠ []) :
    (normalizedCol rows).length = rows.length ∧
    (qmin (rows.map (·.pvalue)) = qmax (rows.map (·.pvalue)) →
      ∀ i, i < rows.length →
        (normalizedCol rows).getD i 0 = 1 ∧
        interpolate_color ((normalizedCol rows).getD i 0) = "0,0,255") ∧
    (qmin (rows.map (·.pvalue)) ≠ qmax (rows.map (·.pvalue)) →
      ∀ i, i < rows.length →
        (normalizedCol rows).getD i 0 =
          ((rows.getD i dmrDefault).pvalue - qmin (rows.map (·.pvalue))) /
            (qmax (rows.map (·.pvalue)) - qmin (rows.map (·.pvalue))) ∧
        0 ≤ (normalizedCol rows).getD i 0 ∧
        (normalizedCol rows).getD i 0 ≤ 1) := by
  refine ⟨?_, ?_, ?_⟩
  · simp only [normalizedCol]
    split <;> simp
  · intro heq i hi
    have hcol : normalizedCol rows = rows.map (fun _ => (1:ℚ)) := by
      simp only [normalizedCol]
      rw [if_pos heq]
    rw [hcol, getD_map_of_lt (fun _ => (1:ℚ)) rows dmrDefault 0 i hi]
    exact ⟨rfl, interpolate_color_one⟩
  · intro hne' i hi
    have hcol : normalizedCol rows =
        rows.map (fun r => (r.pvalue - qmin (rows.map (·.pvalue))) /
          (qmax (rows.map (·.pvalue)) - qmin (rows.map (·.pvalue)))) := by
      simp only [normalizedCol]
      rw [if_neg hne']
    have hval : (normalizedCol rows).getD i 0 =
        ((rows.getD i dmrDefault).pvalue - qmin (rows.map (·.pvalue))) /
          (qmax (rows.map (·.pvalue)) - qmin (rows.map (·.pvalue))) := by
      rw [hcol, getD_map_of_lt _ rows dmrDefault 0 i hi]
    have hmem : (rows.getD i dmrDefault).pvalue ∈ rows.map (·.pvalue) := by
      rw [List.getD_eq_getElem _ _ hi]
      exact List.mem_map_of_mem _ (List.getElem_mem hi)
    have hmn := qmin_le_mem _ _ hmem
    have hmx := mem_le_qmax _ _ hmem
    have hmapne : rows.map (·.pvalue) ≠ ([] : List ℚ) := by
      intro hmap
      exact hne (List.map_eq_nil_iff.mp hmap)
    have hlt : qmin (rows.map (·.pvalue)) < qmax (rows.map (·.pvalue)) :=
      lt_of_le_of_ne (qmin_le_qmax _ hmapne) hne'
    refine ⟨hval, ?_, ?_⟩
    · rw [hval]
      exact div_nonneg (by linarith) (by linarith)
    · rw [hval]
      rw [div_le_one (by linarith)]
      linarith

/-- C3 witness: the theorem applied to the concrete two-row table with
p-values 0 and 1. -/
theorem C3_witness :
    dmrRowsFix ≠ [] ∧
    ((normalizedCol dmrRowsFix).length = dmrRowsFix.length ∧
    (qmin (dmrRowsFix.map (·.pvalue)) = qmax (dmrRowsFix.map (·.pvalue)) →
      ∀ i, i < dmrRowsFix.length →
        (normalizedCol dmrRowsFix).getD i 0 = 1 ∧
        interpolate_color ((normalizedCol dmrRowsFix).getD i 0) = "0,0,255") ∧
    (qmin (dmrRowsFix.map (·.pvalue)) ≠ qmax (dmrRowsFix.map (·.pvalue)) →
      ∀ i, i < dmrRowsFix.length →
        (normalizedCol dmrRowsFix).getD i 0 =
          ((dmrRowsFix.getD i dmrDefault).pvalue - qmin (dmrRowsFix.map (·.pvalue))) /
            (qmax (dmrRowsFix.map (·.pvalue)) - qmin (dmrRowsFix.map (·.pvalue))) ∧
        0 ≤ (normalizedCol dmrRowsFix).getD i 0 ∧
        (normalizedCol dmrRowsFix).getD i 0 ≤ 1)) :=
  ⟨by simp [dmrRowsFix], C3_normalized_safety dmrRowsFix (by simp [dmrRowsFix])⟩

end MethylKit

namespace MethylKit

theorem Cell.numOrNan_cases (c : Cell) (h : c.numOrNan) :
    (∃ q, c = .num q) ∨ c = .nan := by
  cases c with
  | str s => exact absurd h (by simp [Cell.numOrNan])
  | num q => exact .inl ⟨q, rfl⟩
  | nan => exact .inr rfl

theorem formatRow_select (row : List Cell) (hlen : 11 ≤ row.length)
    (c11 c12 : Cell) :
    mapE (fun j =>
        if j < (setCell (setCell row 11 c11) 12 c12).length then
          .ok ((setCell (setCell row 11 c11) 12 c12).getD j .nan)
        else .error (.keyError j))
      [0, 1, 2, 3, 4, 5, 6, 7, 8, 9, 11, 12]
    = .ok [row.getD 0 .nan, row.getD 1 .nan, row.getD 2 .nan, row.getD 3 .nan,
           row.getD 4 .nan, row.getD 5 .nan, row.getD 6 .nan, row.getD 7 .nan,
           row.getD 8 .nan, row.getD 9 .nan, c11, c12] := by
  have hL1 : (setCell row 11 c11).length = max row.length 12 :=
    setCell_length row 11 c11 (by omega)
  have hL2 : (setCell (setCell row 11 c11) 12 c12).length
      = max (max row.length 12) 13 := by
    rw [setCell_length _ 12 c12 (by rw [hL1]; omega), hL1]
  rw [mapE_select _ _ (fun j hj => by rw [hL2]; fin_cases hj <;> omega)]
  simp only [List.map_cons, List.map_nil]
  have hstep : ∀ j, j ≠ 12 →
      (setCell (setCell row 11 c11) 12 c12).getD j .nan
        = (setCell row 11 c11).getD j .nan :=
    fun j hj => setCell_getD_of_ne _ 12 c12 j hj (by rw [hL1]; omega)
  have hrow : ∀ j, j ≤ 9 →
      (setCell (setCell row 11 c11) 12 c12).getD j .nan = row.getD j .nan :=
    fun j hj => by
      rw [hstep j (by omega)]
      exact setCell_getD_of_ne row 11 c11 j (by omega) (by omega)
  have h11 : (setCell (setCell row 11 c11) 12 c12).getD 11 .nan = c11 := by
    rw [hstep 11 (by omega)]
    exact setCell_getD_self row 11 c11 (by omega)
  have h12 : (setCell (setCell row 11 c11) 12 c12).getD 12 .nan = c12 :=
    setCell_getD_self _ 12 c12 (by rw [hL1]; omega)
  rw [hrow 0 (by omega), hrow 1 (by omega), hrow 2 (by omega), hrow 3 (by omega),
    hrow 4 (by omega), hrow 5 (by omega), hrow 6 (by omega), hrow 7 (by omega),
    hrow 8 (by omega), hrow 9 (by omega), h11, h12]

/-- C2: on any source row with at least 11 columns whose coverage column
(9) and percent-methylated column (10) are numeric or NaN, the Formatter
produces exactly the input columns 0 through 9 followed by
methylatedCount = round(coverage * percentMeth / 100) (an integer value)
and methylatedFraction = percentMeth / 100, with `.fillna(0)` applied to
the 12 selected output fields only after derivation and selection. -/
theorem C2_formatter_row (row : List Cell) (hlen : 11 ≤ row.length)
    (h9 : (row.getD 9 Cell.nan).numOrNan) (h10 : (row.getD 10 Cell.nan).numOrNan) :
    formatRow row = .ok
      (([row.getD 0 Cell.nan, row.getD 1 Cell.nan, row.getD 2 Cell.nan,
         row.getD 3 Cell.nan, row.getD 4 Cell.nan, row.getD 5 Cell.nan,
         row.getD 6 Cell.nan, row.getD 7 Cell.nan, row.getD 8 Cell.nan,
         row.getD 9 Cell.nan,
         methylatedCount (row.getD 9 Cell.nan) (row.getD 10 Cell.nan),
         methylatedFraction (row.getD 10 Cell.nan)]).map Cell.fillna) := by
  rcases Cell.numOrNan_cases _ h9 with ⟨qc, hq9⟩ | hq9 <;>
    rcases Cell.numOrNan_cases _ h10 with ⟨qp, hq10⟩ | hq10
  · simp only [formatRow, if_pos hlen, hq9, hq10, Cell.mulConst, Cell.mulCell,
      Cell.roundHE, methylatedCount, methylatedFraction]
    rw [formatRow_select row hlen _ _]
    rw [show qp * (1/100) * qc = qc * qp / 100 from by ring]
    rw [show qp * (1/100) = qp / 100 from by ring]
    rw [hq9]
  · simp only [formatRow, if_pos hlen, hq9, hq10, Cell.mulConst, Cell.mulCell,
      Cell.roundHE, methylatedCount, methylatedFraction]
    rw [formatRow_select row hlen _ _]
    rw [hq9]
  · simp only [formatRow, if_pos hlen, hq9, hq10, Cell.mulConst, Cell.mulCell,
      Cell.roundHE, methylatedCount, methylatedFraction]
    rw [formatRow_select row hlen _ _]
    rw [show qp * (1/100) = qp / 100 from by ring]
    rw [hq9]
  · simp only [formatRow, if_pos hlen, hq9, hq10, Cell.mulConst, Cell.mulCell,
      Cell.roundHE, methylatedCount, methylatedFraction]
    rw [formatRow_select row hlen _ _]
    rw [hq9]

/-- C2 witness: the theorem applied to a concrete 11-column row with
coverage 10 and percent-methylated 25; the derived columns evaluate to
methylatedCount = round(2.5) = 2 (half-to-even) and
methylatedFraction = 1/4. -/
theorem C2_witness :
    11 ≤ rowFix.length ∧ (rowFix.getD 9 Cell.nan).numOrNan ∧
    (rowFix.getD 10 Cell.nan).numOrNan ∧
    formatRow rowFix = .ok
      [Cell.str ("chr1"), Cell.num 100, Cell.num 200, Cell.str ("n"),
       Cell.num 0, Cell.str ("+"), Cell.num 100, Cell.num 200,
       Cell.str ("0,0,0"), Cell.num 10, Cell.num 2, Cell.num (1/4)] := by
  refine ⟨by decide, by decide, by decide, ?_⟩
  have h := C2_formatter_row rowFix (by decide) (by decide) (by decide)
  have hrhe : roundHalfEven ((10:ℚ) * 25 / 100) = 2 := by
    rw [show ((10:ℚ) * 25 / 100) = 5/2 from by norm_num]
    simp only [roundHalfEven, show ⌊(5:ℚ)/2⌋ = 2 from by norm_num [Int.floor_eq_iff]]
    norm_num
  have hcount : methylatedCount (rowFix.getD 9 Cell.nan) (rowFix.getD 10 Cell.nan)
      = Cell.num 2 := by
    rw [show rowFix.getD 9 Cell.nan = Cell.num 10 from rfl,
      show rowFix.getD 10 Cell.nan = Cell.num 25 from rfl]
    simp only [methylatedCount, hrhe, Cell.num.injEq]
    norm_num
  have hfrac : methylatedFraction (rowFix.getD 10 Cell.nan) = Cell.num (1/4) := by
    rw [show rowFix.getD 10 Cell.nan = Cell.num 25 from rfl]
    simp only [methylatedFraction, Cell.num.injEq]
    norm_num
  rw [h, hcount, hfrac]
  rfl

end MethylKit

namespace MethylKit

/-- C6: on success the Formatter returns one ProcessedBED per Sample, in
the same order, carrying the same sample_name and treatment flag, and
each output table has the same row count as its input with row i of the
output being exactly the transform of row i of the input (no resorting,
no deduplication). -/
theorem C6_formatter_shape (samples : List Sample) (out : List ProcessedBED)
    (_hne : samples ≠ []) (h : format_bed_files samples = .ok out) :
    out.length = samples.length ∧
    ∀ i, i < samples.length →
      (out.getD i processedDefault).sample_name
          = (samples.getD i sampleDefault).sample_name ∧
      (out.getD i processedDefault).treatment
          = (samples.getD i sampleDefault).treatment ∧
      (out.getD i processedDefault).rows.length
          = (samples.getD i sampleDefault).rows.length ∧
      ∀ j, j < (samples.getD i sampleDefault).rows.length →
        formatRow ((samples.getD i sampleDefault).rows.getD j [])
          = .ok ((out.getD i processedDefault).rows.getD j []) := by
  refine ⟨mapE_ok_length h, ?_⟩
  intro i hi
  have hfi : (match mapE formatRow (samples.getD i sampleDefault).rows with
      | Except.error e => (Except.error e : Except PyError ProcessedBED)
      | Except.ok rows =>
          Except.ok (ProcessedBED.mk (samples.getD i sampleDefault).sample_name
            rows (samples.getD i sampleDefault).treatment))
      = Except.ok (out.getD i processedDefault) :=
    mapE_ok_getD sampleDefault processedDefault h i hi
  cases hrows : mapE formatRow (samples.getD i sampleDefault).rows with
  | error e =>
      rw [hrows] at hfi
      cases hfi
  | ok rows =>
      rw [hrows] at hfi
      have hfi2 := Except.ok.inj hfi
      refine ⟨?_, ?_, ?_, ?_⟩
      · rw [← hfi2]
      · rw [← hfi2]
      · rw [← hfi2]
        exact mapE_ok_length hrows
      · intro j hj
        rw [← hfi2]
        exact mapE_ok_getD ([]) ([]) hrows j hj

/-- C6 witness: the theorem applied to a singleton batch whose sample has
an empty table, with the Formatter output evaluated. -/
theorem C6_witness :
    ([sampleFix] : List Sample) ≠ [] ∧
    format_bed_files [sampleFix] = .ok [ProcessedBED.mk ("s1") ([]) true] ∧
    [ProcessedBED.mk ("s1") ([]) true].length = [sampleFix].length := by
  have hok : format_bed_files [sampleFix] = .ok [ProcessedBED.mk ("s1") ([]) true] := rfl
  refine ⟨by simp, hok, ?_⟩
  exact (C6_formatter_shape [sampleFix] [ProcessedBED.mk ("s1") ([]) true]
    (by simp) hok).1

/-- C7 (amended): the Formatter does abort on a source table with fewer
than 11 columns or a non-numeric coverage / percent-methylated value, and
one bad row fails the whole batch — but the errors are the pandas
KeyError (missing column label) and TypeError (string arithmetic); no
MalformedInputError type exists in the code. -/
theorem C7_formatter_failures (row : List Cell) :
    (row.length < 11 → formatRow row = .error (.keyError 10)) ∧
    (∀ s : String, 11 ≤ row.length → row.getD 10 Cell.nan = .str s →
      formatRow row = .error .typeError) ∧
    (∀ s : String, 11 ≤ row.length → row.getD 9 Cell.nan = .str s →
      (row.getD 10 Cell.nan).numOrNan → formatRow row = .error .typeError) ∧
    (∀ (samples : List Sample) (smp : Sample), smp ∈ samples →
      (∃ r ∈ smp.rows, ∀ outRow, formatRow r ≠ .ok outRow) →
      ∀ out, format_bed_files samples ≠ .ok out) := by
  refine ⟨?_, ?_, ?_, ?_⟩
  · intro hlt
    rw [formatRow, if_neg (by omega)]
  · intro s hlen h10
    simp only [formatRow, if_pos hlen, h10, Cell.mulConst]
  · intro s hlen h9 h10
    rcases Cell.numOrNan_cases _ h10 with ⟨qp, hq10⟩ | hq10 <;>
      simp only [formatRow, if_pos hlen, h9, hq10, Cell.mulConst, Cell.mulCell]
  · rintro samples smp hmem ⟨r, hr, hbad⟩ out hok
    obtain ⟨b, hb⟩ := mapE_ok_of_mem hok smp hmem
    have hb' : (match mapE formatRow smp.rows with
        | Except.error e => (Except.error e : Except PyError ProcessedBED)
        | Except.ok rows =>
            Except.ok (ProcessedBED.mk smp.sample_name rows smp.treatment))
        = Except.ok b := hb
    cases hrows : mapE formatRow smp.rows with
    | error e =>
        rw [hrows] at hb'
        cases hb'
    | ok rows =>
        obtain ⟨orow, ho⟩ := mapE_ok_of_mem hrows r hr
        exact hbad orow ho

/-- C7 counterexample: concrete malformed inputs on which the code fails
with the pandas KeyError / TypeError - not with a MalformedInputError,
no such type being defined anywhere in the code. -/
theorem C7_counterexample :
    formatRow (List.replicate 10 (Cell.num 1)) = .error (.keyError 10) ∧
    formatRow [Cell.num 0, Cell.num 1, Cell.num 2, Cell.num 3, Cell.num 4,
      Cell.num 5, Cell.num 6, Cell.num 7, Cell.num 8, Cell.num 9,
      Cell.str ("x")] = .error .typeError ∧
    format_bed_files [Sample.mk ("bad") [List.replicate 10 (Cell.num 1)] false]
      = .error (.keyError 10) :=
  ⟨rfl, rfl, rfl⟩

/-- C7 witness: the amended theorem applied to a concrete 9-column row. -/
theorem C7_witness :
    (List.replicate 9 (Cell.num 1)).length < 11 ∧
    formatRow (List.replicate 9 (Cell.num 1)) = .error (.keyError 10) :=
  ⟨by decide, (C7_formatter_failures (List.replicate 9 (Cell.num 1))).1 (by decide)⟩

end MethylKit

namespace MethylKit

theorem foldl_append_map {α β : Type} (f : α → β) :
    ∀ (l : List α) (acc : List β),
      l.foldl (fun a s => a ++ [f s]) acc = acc ++ l.map f := by
  intro l
  induction l with
  | nil => intro acc; simp
  | cons x xs ih =>
      intro acc
      simp [ih]

/-- C4: the DMR Invoker builds the three comma-joined manifest strings
from the input sequence in order (so the three strings line up 1:1 by
position), and runs exactly one external command whose arguments are in
the fixed positional order: names, paths, output directory, minCoverage,
tileSize, tileCoverageCutoff, methylationDifferenceCutoff, qValueCutoff,
treatments. -/
theorem C4_manifest (samples : List ProcessedBEDRef) (output_dirpath : String)
    (base_cov_val tiling_val tile_coverage difference_val : ℤ)
    (q_val_str : String) :
    methyl_file_names samples
        = String.intercalate (",") (samples.map (·.sample_name)) ∧
    methyl_file_paths samples
        = String.intercalate (",") (samples.map (·.local_path)) ∧
    methyl_treatments samples
        = String.intercalate (",")
            (samples.map (fun s => if s.treatment then ("1") else ("0"))) ∧
    methyl_args samples output_dirpath base_cov_val tiling_val tile_coverage
        difference_val q_val_str
      = [("Rscript"), ("methylkit_task.R"), methyl_file_names samples,
         methyl_file_paths samples, output_dirpath, toString base_cov_val,
         toString tiling_val, toString tile_coverage, toString difference_val,
         q_val_str, methyl_treatments samples] ∧
    (methyl_commands samples output_dirpath base_cov_val tiling_val
        tile_coverage difference_val q_val_str).length = 1 := by
  refine ⟨?_, ?_, ?_, rfl, rfl⟩
  · rw [methyl_file_names, foldl_append_map]
    simp
  · rw [methyl_file_paths, foldl_append_map]
    simp
  · rw [methyl_treatments, foldl_append_map]
    simp only [List.nil_append, List.map_map]
    congr 1
    refine List.map_congr_left ?_
    intro s _
    by_cases ht : s.treatment = true
    · simp only [Function.comp_apply, if_pos ht]
      rfl
    · simp only [Function.comp_apply, if_neg ht]
      rfl

/-- C4 witness: the manifest strings evaluated on two concrete processed
samples, one of each treatment group. -/
theorem C4_witness :
    methyl_file_names refsFix = "s1,s2" ∧
    methyl_treatments refsFix = "1,0" ∧
    (methyl_commands refsFix ("/root/t/methylkit") 3 200 10 25 ("0.01")).length
      = 1 := by
  have h := C4_manifest refsFix ("/root/t/methylkit") 3 200 10 25 ("0.01")
  refine ⟨?_, ?_, h.2.2.2.2⟩
  · rw [h.1]
    rfl
  · rw [h.2.2.1]
    rfl

theorem normalizedCol_length (rows : List DMRRow) :
    (normalizedCol rows).length = rows.length := by
  simp only [normalizedCol]
  split <;> simp

/-- C5: the track file text is exactly one literal header line followed
by one header-less tab-separated row per region, each with 9 fields in
order chrom, start, end, name = rendered qvalue, score "0", strand ".",
thickStart = start, thickEnd = end, color. -/
theorem C5_track_file (track_name : String) (render : ℚ → String)
    (rows : List DMRRow) :
    create_track_output track_name render rows
      = "track name=\"" ++ track_name ++ "\" description=\".\" itemRgb=\"On\""
          ++ "\n"
          ++ String.join ((create_track_rows render rows).map
              (fun fs => tabJoin fs ++ "\n")) ∧
    (create_track_rows render rows).length = rows.length ∧
    ∀ i, i < rows.length →
      (create_track_rows render rows).getD i []
        = [(rows.getD i dmrDefault).chrom,
           toString (rows.getD i dmrDefault).chromStart,
           toString (rows.getD i dmrDefault).chromEnd,
           render (rows.getD i dmrDefault).qvalue,
           ("0"), ("."),
           toString (rows.getD i dmrDefault).chromStart,
           toString (rows.getD i dmrDefault).chromEnd,
           interpolate_color ((normalizedCol rows).getD i 0)] ∧
      ((create_track_rows render rows).getD i []).length = 9 := by
  have hzl : (rows.zip (normalizedCol rows)).length = rows.length := by
    rw [List.length_zip, normalizedCol_length]
    omega
  refine ⟨rfl, ?_, ?_⟩
  · rw [create_track_rows, List.length_map, hzl]
  · intro i hi
    have hzi : (rows.zip (normalizedCol rows)).getD i (dmrDefault, 0)
        = (rows.getD i dmrDefault, (normalizedCol rows).getD i 0) := by
      rw [List.getD_eq_getElem _ _ (by rw [hzl]; exact hi),
        List.getD_eq_getElem _ _ hi,
        List.getD_eq_getElem _ _ (by rw [normalizedCol_length]; exact hi)]
      apply List.getElem_zip
    rw [create_track_rows,
      getD_map_of_lt _ _ (dmrDefault, (0:ℚ)) [] i (by rw [hzl]; exact hi), hzi]
    exact ⟨rfl, rfl⟩

/-- C5 witness: the theorem applied at row 0 of the concrete two-row
results table with a constant rendering function. -/
theorem C5_witness :
    (create_track_rows (fun _ => ("q")) dmrRowsFix).getD 0 []
      = [(dmrRowsFix.getD 0 dmrDefault).chrom,
         toString (dmrRowsFix.getD 0 dmrDefault).chromStart,
         toString (dmrRowsFix.getD 0 dmrDefault).chromEnd,
         ("q"), ("0"), ("."),
         toString (dmrRowsFix.getD 0 dmrDefault).chromStart,
         toString (dmrRowsFix.getD 0 dmrDefault).chromEnd,
         interpolate_color ((normalizedCol dmrRowsFix).getD 0 0)] ∧
    ((create_track_rows (fun _ => ("q")) dmrRowsFix).getD 0 []).length = 9 :=
  (C5_track_file ("t") (fun _ => ("q")) dmrRowsFix).2.2 0 (by decide)

/-- C8 (amended): when no file matches, the located path stays the empty
string and reading it fails with FileNotFoundError (not a
MissingResultsError); when the located table does not have exactly 7
columns the rename fails with a pandas ValueError length mismatch (not a
MalformedResultsError); neither error type exists in the code. -/
theorem C8_track_load_failures (files : List ResultsFile)
    (hpaths : ∀ f ∈ files, f.path ≠ ("")) :
    ((∀ f ∈ files, dmrMatch f.path = false) →
      create_track_load files = .error (.fileNotFoundError (""))) ∧
    (∀ f : ResultsFile,
      files.find? (fun g => g.path == locateDMRFile (files.map (·.path)))
          = some f →
      f.ncols ≠ 7 →
      create_track_load files
        = .error (.valueErrorLengthMismatch f.ncols 7)) := by
  constructor
  · intro hnone
    have hloc : locateDMRFile (files.map (·.path)) = ("") :=
      locateDMRFile_no_match _ (by
        intro p hp
        obtain ⟨f, hf, rfl⟩ := List.mem_map.mp hp
        exact hnone f hf)
    have hfind : files.find? (fun g => g.path == ("")) = none := by
      rw [List.find?_eq_none]
      intro f hf
      simpa using hpaths f hf
    simp only [create_track_load, hloc, hfind]
  · intro f hfind h7
    simp only [create_track_load, hfind]
    rw [if_neg h7]

/-- C8 counterexample: a directory with no matching file yields
FileNotFoundError on the empty path, and a matching 6-column table yields
the pandas ValueError — not the MissingResultsError /
MalformedResultsError the claim names. -/
theorem C8_counterexample :
    create_track_load [ResultsFile.mk ("results/plot.png") 3 []]
      = .error (.fileNotFoundError ("")) ∧
    create_track_load [ResultsFile.mk ("x_DMR_regions.csv") 6 []]
      = .error (.valueErrorLengthMismatch 6 7) :=
  ⟨rfl, rfl⟩

/-- C8 witness: the amended theorem applied to a concrete directory with
one non-matching file. -/
theorem C8_witness :
    (∀ f ∈ [ResultsFile.mk ("a.png") 7 []], f.path ≠ ("")) ∧
    create_track_load [ResultsFile.mk ("a.png") 7 []]
      = .error (.fileNotFoundError ("")) :=
  ⟨by decide,
   (C8_track_load_failures [ResultsFile.mk ("a.png") 7 []] (by decide)).1
     (by decide)⟩

/-- C9 (amended): any non-zero exit status of the engine raises
subprocess.CalledProcessError (from check=True) before the return
statement — no retry, no partial result — and the directory handle is
returned exactly when the exit status is 0; no ExternalEngineError type
exists in the code. -/
theorem C9_engine_exit (exitCode : Nat) (local_dir remote_dir : String) :
    (exitCode ≠ 0 →
      methyl_run exitCode local_dir remote_dir
        = .error (.calledProcessError exitCode)) ∧
    (methyl_run exitCode local_dir remote_dir
        = .ok (LatchDirHandle.mk local_dir remote_dir) ↔ exitCode = 0) := by
  constructor
  · intro h
    rw [methyl_run, if_neg h]
  · constructor
    · intro h
      by_cases h0 : exitCode = 0
      · exact h0
      · rw [methyl_run, if_neg h0] at h
        cases h
    · intro h
      rw [methyl_run, if_pos h]

/-- C9 counterexample: exit status 1 produces the CalledProcessError of
subprocess's check=True, not an ExternalEngineError (no such class exists
in the code); exit 0 produces the directory handle. -/
theorem C9_counterexample :
    methyl_run 1 ("methyl_out") ("latch:///out")
      = .error (.calledProcessError 1) ∧
    methyl_run 0 ("methyl_out") ("latch:///out")
      = .ok (LatchDirHandle.mk ("methyl_out") ("latch:///out")) :=
  ⟨rfl, rfl⟩

/-- C9 witness: the amended theorem applied at exit status 2. -/
theorem C9_witness :
    (2 ≠ 0) ∧ methyl_run 2 ("m") ("r") = .error (.calledProcessError 2) :=
  ⟨by decide, (C9_engine_exit 2 ("m") ("r")).1 (by decide)⟩

/-- C10: with more than one matching file, the location loop keeps the
last match in iteration order, silently ignoring every earlier one, and
the load succeeds on that last file with no error for the multiplicity. -/
theorem C10_last_match (files : List ResultsFile) (f : ResultsFile)
    (_hmulti : 2 ≤ ((files.map (·.path)).filter (fun p => dmrMatch p)).length)
    (hfind : files.find? (fun g => g.path == locateDMRFile (files.map (·.path)))
        = some f)
    (h7 : f.ncols = 7) :
    locateDMRFile (files.map (·.path))
      = ((files.map (·.path)).filter (fun p => dmrMatch p)).getLastD ("") ∧
    create_track_load files = .ok f := by
  refine ⟨locateDMRFile_eq_getLastD _, ?_⟩
  simp only [create_track_load, hfind]
  rw [if_pos h7]

/-- C10 witness: a concrete directory with two matching files — the
earlier match is even malformed and still ignored; the last match is
read and returned. -/
theorem C10_witness :
    2 ≤ ((filesFix.map (·.path)).filter (fun p => dmrMatch p)).length ∧
    create_track_load filesFix = .ok (ResultsFile.mk ("b_DMR_regions.csv") 7 []) :=
  ⟨by decide,
   (C10_last_match filesFix (ResultsFile.mk ("b_DMR_regions.csv") 7 [])
     (by decide) (by decide) (by decide)).2⟩

end MethylKit
